import Mathlib

/-!
# Verification of the lupa cross-runtime object bridge specification

Shallow embedding of the parts of the lupa code base (scoder/lupa) that the
frozen claims are about, together with theorems settling each claim.

The repository snapshot under verification contains the Python entry module
`lupa/__init__.py`, the build script `setup.py` and the test suites
`lupa/tests/test.py` / `lupy/tests/test.py`.  The Cython implementation of
the bridge itself (`_lupa.pyx`, `lock.pxd`) is not part of the snapshot, so
the components it implements (the reentrant lock, the marshaling engine, the
proxy objects, the coroutine bridge, the memory/overflow policies) are
modelled from the specification, as marked in the doc comment of each such
definition.  `lupa/__init__.py` is embedded directly from its source.
-/

namespace Lupa

/-! ## C2: the reentrant session lock (FastRLock)

Modelled from the spec: the implementation (`lupa/lock.pxd`) is not in the
snapshot.  Spec §4.1: an atomic owner-thread-id plus a depth counter;
unlimited same-thread recursive acquisition with matching release count;
`release` by a thread that does not own the lock, or when the lock is not
held, raises a programmer error (`RuntimeError` in the tests). -/

/-- A host thread identifier. -/
abbrev ThreadId := Nat

/-- Errors surfaced to the host in the lock model. -/
inductive LockError where
  | runtimeError
deriving DecidableEq, Repr

/-- Modelled from the spec: the Reentrant Session Lock state — the owning
thread (none when unheld) and the same-thread acquisition depth.
Invariantly `owner = none ↔ count = 0`. -/
structure FastRLock where
  owner : Option ThreadId
  count : Nat
deriving DecidableEq, Repr

/-- A freshly created, unheld lock. -/
def FastRLock.new : FastRLock := ⟨none, 0⟩

/-- Modelled from the spec: `acquire` by thread `t`.  Succeeds immediately
when the lock is unheld or already owned by `t` (same-thread reentry);
returns `none` when it would have to block on cross-thread contention. -/
def FastRLock.acquire (l : FastRLock) (t : ThreadId) : Option FastRLock :=
  match l.owner with
  | none => some ⟨some t, l.count + 1⟩
  | some o => if o = t then some ⟨some t, l.count + 1⟩ else none

/-- Modelled from the spec: `release` by thread `t`.  Raises the
programmer-misuse error (`RuntimeError`) when the lock is not held by `t`
— both when unheld and when held by a different thread; otherwise
decrements the depth, dropping ownership at depth zero. -/
def FastRLock.release (l : FastRLock) (t : ThreadId) :
    Except LockError FastRLock :=
  match l.owner with
  | none => .error .runtimeError
  | some o =>
    if o = t then
      if l.count ≤ 1 then .ok ⟨none, 0⟩
      else .ok ⟨some t, l.count - 1⟩
    else .error .runtimeError

/-- Modelled from the spec: `_is_owned` — does the calling thread own the
lock? -/
def FastRLock.isOwned (l : FastRLock) (t : ThreadId) : Bool :=
  l.owner = some t

/-- Perform `n` successive same-thread acquisitions by `t`. -/
def FastRLock.acquireN (l : FastRLock) (t : ThreadId) : Nat → Option FastRLock
  | 0 => some l
  | n + 1 => (l.acquire t).bind (fun l' => l'.acquireN t n)

/-- Perform `n` successive releases by `t`. -/
def FastRLock.releaseN (l : FastRLock) (t : ThreadId) : Nat → Except LockError FastRLock
  | 0 => .ok l
  | n + 1 => (l.release t).bind (fun l' => l'.releaseN t n)

/-! ## Shared value model

Modelled from the spec: `MarshalValue` (§3), the tagged union of boundary
values.  Only the constructors the claims exercise are included; host
objects are identified by an `id` standing for Python object identity. -/

/-- A Python exception object, distinguished by object identity. -/
structure PyExc where
  id : Nat
deriving DecidableEq, Repr

/-- Modelled from the spec: the boundary value model (`MarshalValue`, §3).
`pynone` is the `python.none` userdata wrapper visible to Lua code;
`pyobj` is a host object (here: an exception object) crossing as userdata;
`floatv` carries the exact value of a Lua float (floats are treated as
exact within their representable range in this model). -/
inductive LuaVal where
  | nil
  | boolean (b : Bool)
  | intv (n : Int)
  | floatv (q : Int)
  | str (s : String)
  | pynone
  | pyobj (e : PyExc)
deriving DecidableEq, Repr

/-! ## C4: the coroutine bridge

Modelled from the spec (§4.4): status machine
`not-started -> suspended <-> running -> dead`, resume delivering the next
yielded value, the finishing resume delivering the final return value when
there is one, a StopIteration-equivalent once finished, and a terminal
dead state. -/

/-- The coroutine status enum (§3, `CoroutineProxy`). -/
inductive CoStatus where
  | notStarted
  | suspended
  | running
  | normal
  | dead
deriving DecidableEq, Repr

/-- The StopIteration-equivalent raised by an exhausted coroutine. -/
inductive CoError where
  | stopIteration
deriving DecidableEq, Repr

/-- Modelled from the spec: a coroutine proxy — its status, the values its
body will still yield (in order), and its explicit final return value, if
any. -/
structure CoroutineProxy where
  status : CoStatus
  pending : List LuaVal
  retval : Option LuaVal
deriving DecidableEq, Repr

/-- Modelled from the spec: one `resume`/`next`/`send` step.  A dead
coroutine raises the StopIteration-equivalent and is left unchanged (the
body is never re-executed).  Otherwise the next yielded value is delivered
with status `suspended`; when the body is exhausted, the finishing resume
delivers the explicit return value if there is one, or raises the
StopIteration-equivalent, and the coroutine becomes `dead` either way. -/
def CoroutineProxy.resume (co : CoroutineProxy) :
    Except CoError LuaVal × CoroutineProxy :=
  if co.status = .dead then (.error .stopIteration, co)
  else
    match co.pending with
    | y :: rest => (.ok y, ⟨.suspended, rest, co.retval⟩)
    | [] =>
      match co.retval with
      | some v => (.ok v, ⟨.dead, [], none⟩)
      | none => (.error .stopIteration, ⟨.dead, [], none⟩)

/-- The boolean "is alive" query (`bool(gen)` on the host side). -/
def CoroutineProxy.isAlive (co : CoroutineProxy) : Bool :=
  co.status ≠ .dead

/-- The coroutine state after `k` resume steps (outputs discarded). -/
def CoroutineProxy.resumeK (co : CoroutineProxy) : Nat → CoroutineProxy
  | 0 => co
  | k + 1 => (co.resume).2.resumeK k

/-! ## C1: host exception propagation

Modelled from the spec (§7): a host exception raised inside a callback
invoked by Lua code travels up the Lua call stack as a wrapped error value
carrying the exception object losslessly, and at the top-level host call
site it re-emerges as the original exception object; `pcall` observes the
identical object as its error value. -/

/-- An error value travelling up the Lua call stack: a plain Lua error
message, or a host (Python) exception object carried losslessly. -/
inductive LuaErrVal where
  | luaMsg (s : String)
  | pyErr (e : PyExc)
deriving DecidableEq, Repr

/-- The outcome observed at the top-level host call site: a normal result
(Lua multiple returns), the original Python exception re-raised, or a
`LuaError` wrapping a Lua-level error message. -/
inductive HostOutcome where
  | ok (vs : List LuaVal)
  | pyRaise (e : PyExc)
  | luaError (s : String)
deriving DecidableEq, Repr

/-- A host callable passed into the runtime: invoking it yields a value or
raises a Python exception. -/
def HostFn := Unit → Except PyExc LuaVal

/-- Modelled from the spec: the Lua computations the propagation claim
exercises — literals, a call of a host callable, a Lua-level `error(s)`,
further Lua work applied to a result, and `pcall`. -/
inductive LExp where
  | lit (v : LuaVal)
  | hostCall (f : HostFn)
  | luaFail (s : String)
  | after (e : LExp) (k : LuaVal → LuaVal)
  | pcallE (e : LExp)

/-- How an in-stack error value is seen as a Lua value by `pcall`: a plain
message stays a string; a wrapped host exception is the identical host
exception object, as userdata. -/
def LuaErrVal.toLua : LuaErrVal → LuaVal
  | .luaMsg s => .str s
  | .pyErr e => .pyobj e

/-- Modelled from the spec: evaluation inside the Lua stack.  A host
exception raised by a callback is wrapped (not stringified) and propagates
through every enclosing Lua frame; `pcall` stops propagation and returns
`(false, error_value)`. -/
def evalL : LExp → Except LuaErrVal (List LuaVal)
  | .lit v => .ok [v]
  | .hostCall f =>
    match f () with
    | .ok v => .ok [v]
    | .error e => .error (.pyErr e)
  | .luaFail s => .error (.luaMsg s)
  | .after e k =>
    match evalL e with
    | .ok vs => .ok [k (vs.headD .nil)]
    | .error err => .error err
  | .pcallE e =>
    match evalL e with
    | .ok vs => .ok (.boolean true :: vs)
    | .error err => .ok [.boolean false, err.toLua]

/-- Modelled from the spec: the host/Lua boundary of a top-level call.  A
wrapped host exception is unwrapped back to the original exception object;
a Lua-level error becomes the `LuaError`-equivalent. -/
def topCall (e : LExp) : HostOutcome :=
  match evalL e with
  | .ok vs => .ok vs
  | .error (.pyErr exc) => .pyRaise exc
  | .error (.luaMsg s) => .luaError s

/-! ## C6: the host `None` sentinel as a table key

Modelled from the spec (§4.3): Lua tables are modelled with their array
part (keys `1..#arr`, which the Lua length operator measures) and hash
part; the host key `None` marshals to the distinguished `python.none`
userdata key, on both conversion directions. -/

/-- Lua table keys: integers, strings, and the `python.none` userdata key
that the host `None` sentinel marshals to. -/
inductive LKey where
  | ikey (i : Int)
  | skey (s : String)
  | nkey
deriving DecidableEq, Repr

/-- Host-side (Python) values, as far as the claims need them. -/
inductive PyVal where
  | none
  | pybool (b : Bool)
  | pyint (n : Int)
  | pyfloat (q : Int)
  | pystr (s : String)
  | pycallable (id : Nat)
  | pyexc (e : PyExc)
deriving DecidableEq, Repr

/-- Lookup in the hash part (first match). -/
def hashFind : List (LKey × LuaVal) → LKey → Option LuaVal
  | [], _ => Option.none
  | p :: rest, k => if p.1 = k then some p.2 else hashFind rest k

/-- Update/insert in the hash part. -/
def hashSet : List (LKey × LuaVal) → LKey → LuaVal → List (LKey × LuaVal)
  | [], k, v => [(k, v)]
  | p :: rest, k, v =>
    if p.1 = k then (k, v) :: rest else p :: hashSet rest k v

/-- Modelled from the spec: a Lua table — array part (value at integer key
`i` is `arr[i-1]` for `1 ≤ i ≤ #arr`) and hash part. -/
structure LTable where
  arr : List LuaVal
  hash : List (LKey × LuaVal)
deriving DecidableEq, Repr

/-- Raw read of a table key. -/
def LTable.rawget (t : LTable) (k : LKey) : Option LuaVal :=
  match k with
  | .ikey i =>
    if 1 ≤ i ∧ i ≤ t.arr.length then t.arr.get? (i - 1).toNat
    else hashFind t.hash k
  | _ => hashFind t.hash k

/-- Raw write of a table key. -/
def LTable.rawset (t : LTable) (k : LKey) (v : LuaVal) : LTable :=
  match k with
  | .ikey i =>
    if 1 ≤ i ∧ i ≤ t.arr.length then ⟨t.arr.set (i - 1).toNat v, t.hash⟩
    else ⟨t.arr, hashSet t.hash k v⟩
  | _ => ⟨t.arr, hashSet t.hash k v⟩

/-- The Lua length operator on the table (the array-part border). -/
def LTable.len (t : LTable) : Nat := t.arr.length

/-- Marshaling a Lua value back to the host: `nil` and the `python.none`
userdata both come back as the host `None`. -/
def luaValToHost : LuaVal → PyVal
  | .nil => .none
  | .pynone => .none
  | .boolean b => .pybool b
  | .intv n => .pyint n
  | .floatv q => .pyfloat q
  | .str s => .pystr s
  | .pyobj e => .pyexc e

/-- Host-side read `t[None]`: the key `None` marshals to the
`python.none` userdata key, an absent key reads as `nil`, and the result
is marshaled back to the host. -/
def LTable.hostGetNone (t : LTable) : PyVal :=
  luaValToHost ((t.rawget .nkey).getD .nil)

/-- Lua-side read `t[python.none]` (what a Lua function returns before the
result crosses back to the host). -/
def LTable.luaGetPyNone (t : LTable) : LuaVal :=
  (t.rawget .nkey).getD .nil

/-- Marshaling a host value into Lua, as far as the claim needs it. -/
def hostValToLua : PyVal → LuaVal
  | .none => .nil
  | .pybool b => .boolean b
  | .pyint n => .intv n
  | .pyfloat q => .floatv q
  | .pystr s => .str s
  | .pycallable _ => .nil
  | .pyexc e => .pyobj e

/-- Host-side write `t[None] = v`. -/
def LTable.hostSetNone (t : LTable) (v : PyVal) : LTable :=
  t.rawset .nkey (hostValToLua v)

/-! ## C7: the memory budget

Modelled from the spec (§4.6): the allocator hook consults the budget on
every allocation; exceeding it raises the distinct out-of-memory
condition; `set_max_memory` always succeeds, the new budget taking effect
on the next allocation. -/

/-- The error taxonomy the memory claims distinguish: the generic
`LuaError`, the `LuaSyntaxError`, and the distinct `LuaMemoryError`. -/
inductive LuaErrorKind where
  | luaError (msg : String)
  | luaSyntaxError (msg : String)
  | luaMemoryError
deriving DecidableEq, Repr

/-- Allocation accounting of the session: bytes in use and the budget
(`0` means unlimited, as for `set_max_memory(0)`). -/
structure MemState where
  used : Nat
  maxMem : Nat
deriving DecidableEq, Repr

/-- Modelled from the spec: the allocator hook for an allocation of `n`
bytes.  When a budget is set and would be exceeded, the distinct
out-of-memory error is raised and nothing is allocated. -/
def MemState.alloc (st : MemState) (n : Nat) : Except LuaErrorKind MemState :=
  if st.maxMem ≠ 0 ∧ st.maxMem < st.used + n then .error .luaMemoryError
  else .ok ⟨st.used + n, st.maxMem⟩

/-- Modelled from the spec: `set_max_memory(b)` — total, it never consults
current usage; the lowered budget is enforced only by later allocations. -/
def MemState.setMaxMemory (st : MemState) (b : Nat) :
    Except LuaErrorKind MemState :=
  .ok ⟨st.used, b⟩

/-! ## C3: integer marshaling and the overflow handler

Modelled from the spec (§4.3, §8): integers within the native integer
range of the embedded runtime become Lua integers; out-of-range integers
invoke the OverflowHandler if installed (the handler result is
re-marshaled once, never looped) and raise the OverflowError-equivalent
otherwise.  Floats are treated as exact values within the finite double
range, per the example scenario in the spec (a float equal to the value
of that integer). -/

/-- The largest Lua integer (64-bit signed). -/
def LUA_MAXINTEGER : Int := 2 ^ 63 - 1

/-- The smallest Lua integer (64-bit signed). -/
def LUA_MININTEGER : Int := -(2 ^ 63)

/-- The value of the largest finite IEEE-754 double, as an integer: the
bound of the Python float range in the exact-value model. -/
def maxFloatInt : Int := (2 ^ 53 - 1) * 2 ^ 971

/-- The numeric-overflow error of the marshaling engine. -/
inductive MarshalError where
  | overflowError
deriving DecidableEq, Repr

/-- Modelled from the spec: Python `float(n)` on an integer — within the
float range it converts (exactly, in this model), beyond it raises
OverflowError. -/
def pyFloatOfInt (n : Int) : Except MarshalError PyVal :=
  if -maxFloatInt ≤ n ∧ n ≤ maxFloatInt then .ok (.pyfloat n)
  else .error .overflowError

/-- Modelled from the spec: the single re-marshal pass applied to an
overflow handler result — an integer result still out of range raises
rather than invoking the handler again. -/
def marshalResult : PyVal → Except MarshalError LuaVal
  | .pyint m =>
    if LUA_MININTEGER ≤ m ∧ m ≤ LUA_MAXINTEGER then .ok (.intv m)
    else .error .overflowError
  | v => .ok (hostValToLua v)

/-- Modelled from the spec: marshaling a host integer under an optional
overflow handler. -/
def marshalInt (handler : Option (Int → Except MarshalError PyVal))
    (n : Int) : Except MarshalError LuaVal :=
  if LUA_MININTEGER ≤ n ∧ n ≤ LUA_MAXINTEGER then .ok (.intv n)
  else
    match handler with
    | Option.none => .error .overflowError
    | some h => (h n).bind marshalResult

/-! ## C5: dead references after session teardown

Modelled from the spec (§3, §7, §8): a proxy holds a non-owning
back-reference to its Session and must check its liveness before
re-entering the embedded runtime; after the session is dropped, the proxy
still answers its last cached index lookup, but any new embedded call
raises the dead-reference error instead of crashing. -/

/-- The dead-reference error. -/
inductive ProxyError where
  | deadReference
deriving DecidableEq, Repr

/-- Modelled from the spec: a table proxy — the liveness of its non-owning
session back-reference, its last cached index lookup (captured while the
session was alive), and the embedded table it wraps. -/
structure TableProxy where
  sessionAlive : Bool
  cached : Option (LKey × LuaVal)
  tbl : LTable

/-- Modelled from the spec: an operation that must re-enter the embedded
runtime — it checks session liveness first and raises the dead-reference
error when the session is gone (a total function: never a crash). -/
def TableProxy.embeddedCall (p : TableProxy) (k : LKey) :
    Except ProxyError LuaVal :=
  if p.sessionAlive then .ok ((p.tbl.rawget k).getD .nil)
  else .error .deadReference

/-- Modelled from the spec: an index lookup through the proxy — answered
from the cache when the key matches the last cached lookup, otherwise a
new embedded call. -/
def TableProxy.index (p : TableProxy) (k : LKey) : Except ProxyError LuaVal :=
  match p.cached with
  | some (ck, cv) => if ck = k then .ok cv else p.embeddedCall k
  | Option.none => p.embeddedCall k

/-- The host drops its last reference to the owning Session: the embedded
state is torn down and the back-reference of the proxy goes dead. -/
def TableProxy.dropSession (p : TableProxy) : TableProxy :=
  ⟨false, p.cached, p.tbl⟩

/-! ## C8: construction-time validation of the attribute access policy

Modelled from the spec (§4.5): the filter and handler forms are mutually
exclusive at Session construction; malformed handler tuples (wrong
arity/type) and non-callable filters are rejected at construction with
ValueError, not at first use. -/

/-- The construction-time rejection (`ValueError`). -/
inductive CtorError where
  | valueError
deriving DecidableEq, Repr

/-- Is a host value callable? -/
def PyVal.isCallable : PyVal → Bool
  | .pycallable _ => true
  | _ => false

/-- The installed attribute-access policy of a constructed session. -/
structure AttrPolicy where
  filter : Option PyVal
  getter : Option PyVal
  setter : Option PyVal
deriving DecidableEq, Repr

/-- Modelled from the spec: construction-time validation of
`attribute_filter` (given as `PyVal.none` when absent) and
`attribute_handlers` (the elements of the given tuple; `Option.none` when
absent; an empty tuple counts as absent, being falsy). -/
def validatePolicy (attribute_filter : PyVal)
    (attribute_handlers : Option (List PyVal)) :
    Except CtorError AttrPolicy :=
  if attribute_filter ≠ .none ∧ ¬ attribute_filter.isCallable then
    .error .valueError
  else
    match attribute_handlers with
    | Option.none =>
      .ok ⟨if attribute_filter = .none then Option.none
           else some attribute_filter, Option.none, Option.none⟩
    | some [] =>
      .ok ⟨if attribute_filter = .none then Option.none
           else some attribute_filter, Option.none, Option.none⟩
    | some hs =>
      if attribute_filter ≠ .none then .error .valueError
      else
        match hs with
        | [g, s] =>
          if (g = .none ∨ g.isCallable) ∧ (s = .none ∨ s.isCallable) then
            .ok ⟨Option.none,
                 if g = .none then Option.none else some g,
                 if s = .none then Option.none else some s⟩
          else .error .valueError
        | _ => .error .valueError

/-! ## C9 and C10: `lupa/__init__.py`

These definitions are embedded directly from the source in
`src/lupa/__init__.py`: the regex scan of the package directory, the
selection key (is the base name "lua", then the digit tuple), the Python
`max` (first maximal element), the `_newest_lib` cache, module
`__getattr__`, and the dlopen-flags discipline of
`allow_lua_module_loading`. -/

/-- The groups of `re.match(r"((lua[a-z]*)([0-9]*))\..*", filename)`:
`(whole stem, base name, version digits)`, or `none` when the regex does
not match.  The character classes `[a-z]`, `[0-9]` and the literal `.`
are disjoint, so the greedy match is deterministic. -/
def matchLuaModule (filename : String) : Option (String × String × String) :=
  match filename.data with
  | 'l' :: 'u' :: 'a' :: rest =>
    let letters := rest.takeWhile Char.isLower
    let afterL := rest.dropWhile Char.isLower
    let digits := afterL.takeWhile Char.isDigit
    let afterD := afterL.dropWhile Char.isDigit
    match afterD with
    | '.' :: _ =>
      some (⟨'l' :: 'u' :: 'a' :: (letters ++ digits)⟩,
            ⟨'l' :: 'u' :: 'a' :: letters⟩, ⟨digits⟩)
    | _ => Option.none
  | _ => Option.none

/-- Embedded selection-key component: the per-character digit tuple of
the version string, with the digit 0 substituted for an empty one. -/
def versionKey (digits : String) : List Nat :=
  (if digits.isEmpty then "0" else digits).data.map
    (fun c => c.toNat - 48)

/-- Lexicographic comparison of Python integer tuples (a strict prefix is
smaller). -/
def natListCmp : List Nat → List Nat → Ordering
  | [], [] => .eq
  | [], _ :: _ => .lt
  | _ :: _, [] => .gt
  | a :: as, b :: bs =>
    if a < b then .lt
    else if b < a then .gt
    else natListCmp as bs

/-- Is an `Ordering` the strict "less than" outcome? -/
def ordIsLt : Ordering → Bool
  | .lt => true
  | _ => false

/-- The Python `<` on the `(bool, tuple)` selection keys:
`False < True`, tuples lexicographically. -/
def keyLt (k1 k2 : Bool × List Nat) : Bool :=
  match k1.1, k2.1 with
  | false, true => true
  | true, false => false
  | _, _ => ordIsLt (natListCmp k1.2 k2.2)

/-- The selection key of a regex match: is the base name equal to
"lua", then the digit tuple of the version — plain Lua sorts above
LuaJIT, then higher versions above lower. -/
def moduleKey (m : String × String × String) : Bool × List Nat :=
  (m.2.1 == "lua", versionKey m.2.2)

/-- Python `max(modules, key=...)`: the first element with maximal key (a
later element replaces the current best only when strictly greater). -/
def pyMax {α : Type} (key : α → Bool × List Nat) : List α → Option α
  | [] => Option.none
  | x :: xs =>
    some (xs.foldl (fun best y =>
      if keyLt (key best) (key y) then y else best) x)

/-- The `RuntimeError` raised when no Lua binary module is found. -/
inductive InitError where
  | runtimeError (msg : String)
deriving DecidableEq, Repr

/-- The module-level mutable state: the `_newest_lib` cache (the imported
module, identified by its stem name; `none` before the first import). -/
structure InitState where
  newestLib : Option String
deriving DecidableEq, Repr

/-- Embedded from `_import_newest_lib`: return the cached module when
present; otherwise collect the regex matches over the directory listing,
raise `RuntimeError` when there are none, pick the maximum under the
selection key, and cache the chosen module. -/
def importNewestLib (st : InitState) (listing : List String) :
    Except InitError (String × InitState) :=
  match st.newestLib with
  | some m => .ok (m, st)
  | Option.none =>
    let modules := listing.filterMap matchLuaModule
    match pyMax moduleKey modules with
    | Option.none =>
      .error (.runtimeError "Failed to import Lupa binary module.")
    | some m => .ok (m.1, ⟨some m.1⟩)

/-- Embedded from module `__getattr__` (the default branch, for attribute
names not of the form `lua[a-z]*[0-9]*`): resolve the newest module —
importing it only now, on first attribute access — and look the attribute
up on it (modelled as the pair of module and attribute name). -/
def moduleGetattr (st : InitState) (listing : List String) (name : String) :
    Except InitError ((String × String) × InitState) :=
  match importNewestLib st listing with
  | .error e => .error e
  | .ok (m, st') => .ok ((m, name), st')

/-- The process dlopen-flags state (`sys.getdlopenflags()` /
`sys.setdlopenflags()`). -/
structure SysState where
  dlopenflags : Nat
deriving DecidableEq, Repr

/-- The Linux value of the RTLD_NOW dlopen flag. -/
def RTLD_NOW : Nat := 2

/-- The Linux value of the RTLD_GLOBAL dlopen flag. -/
def RTLD_GLOBAL : Nat := 256

/-- Embedded from `allow_lua_module_loading`: when the platform has no
dlopen flags (`RTLD_NOW`/`RTLD_GLOBAL` unavailable), yield without
touching anything; otherwise save the current flags, set
`RTLD_NOW | RTLD_GLOBAL`, run the body, and restore the saved flags in a
`finally` clause on every exit path — the result of the body, normal or
raising, is returned unchanged. -/
def allow_lua_module_loading {ε α : Type} (hasDlopenFlags : Bool)
    (body : SysState → Except ε α) (st : SysState) :
    Except ε α × SysState :=
  if hasDlopenFlags then
    (body ⟨RTLD_NOW ||| RTLD_GLOBAL⟩, ⟨st.dlopenflags⟩)
  else
    (body st, st)

/-- Embedded from the import step of `_import_newest_lib`: with exactly one Lua
binary module in the directory listing, the import runs inside
`allow_lua_module_loading`; otherwise it runs with the flags untouched. -/
def importNewestWithFlags {ε α : Type} (hasDlopenFlags : Bool)
    (listing : List String) (imp : SysState → Except ε α) (st : SysState) :
    Except ε α × SysState :=
  if (listing.filterMap matchLuaModule).length = 1 then
    allow_lua_module_loading hasDlopenFlags imp st
  else
    (imp st, st)

lemma FastRLock.acquire_owned (t : ThreadId) (c : Nat) :
    FastRLock.acquire ⟨some t, c⟩ t = some ⟨some t, c + 1⟩ := by
  simp [FastRLock.acquire]

lemma FastRLock.acquireN_owned (t : ThreadId) (n : Nat) :
    ∀ c : Nat, FastRLock.acquireN ⟨some t, c⟩ t n = some ⟨some t, c + n⟩ := by
  induction n with
  | zero => intro c; rfl
  | succ k ih =>
    intro c
    have e : c + (k + 1) = (c + 1) + k := by omega
    rw [e]
    simp only [FastRLock.acquireN]
    rw [FastRLock.acquire_owned]
    exact ih (c + 1)

lemma FastRLock.acquireN_new (t : ThreadId) (n : Nat) :
    FastRLock.acquireN FastRLock.new t (n + 1) = some ⟨some t, n + 1⟩ := by
  conv_rhs => rw [show n + 1 = 1 + n from by omega]
  exact FastRLock.acquireN_owned t n 1

lemma FastRLock.release_owned_one (t : ThreadId) :
    FastRLock.release ⟨some t, 1⟩ t = .ok FastRLock.new := by
  simp [FastRLock.release, FastRLock.new]

lemma FastRLock.release_owned_deep (t : ThreadId) (c : Nat) :
    FastRLock.release ⟨some t, c + 2⟩ t = .ok ⟨some t, c + 1⟩ := by
  simp only [FastRLock.release, if_true]
  rw [if_neg (by omega)]
  simp only [Except.ok.injEq, FastRLock.mk.injEq]
  exact ⟨trivial, by omega⟩

lemma FastRLock.releaseN_owned (t : ThreadId) (n : Nat) :
    FastRLock.releaseN ⟨some t, n + 1⟩ t (n + 1) = .ok FastRLock.new := by
  induction n with
  | zero =>
    simp only [FastRLock.releaseN]
    rw [FastRLock.release_owned_one]
    rfl
  | succ k ih =>
    show FastRLock.releaseN ⟨some t, k + 2⟩ t (k + 2) = .ok FastRLock.new
    simp only [FastRLock.releaseN]
    rw [FastRLock.release_owned_deep]
    exact ih

lemma CoroutineProxy.resume_live_cons (s : CoStatus) (hs : s ≠ .dead)
    (y : LuaVal) (rest : List LuaVal) (r : Option LuaVal) :
    CoroutineProxy.resume ⟨s, y :: rest, r⟩ = (.ok y, ⟨.suspended, rest, r⟩) := by
  simp [CoroutineProxy.resume, hs]

lemma CoroutineProxy.resumeK_pending (k : Nat) :
    ∀ (ys : List LuaVal) (r : Option LuaVal) (s : CoStatus), s ≠ .dead →
      1 ≤ k → k ≤ ys.length →
      CoroutineProxy.resumeK ⟨s, ys, r⟩ k = ⟨.suspended, ys.drop k, r⟩ := by
  induction k with
  | zero => intro ys r s _ h1 _; omega
  | succ j ih =>
    intro ys r s hs _ hlen
    match ys with
    | [] => simp at hlen
    | y :: rest =>
      simp only [CoroutineProxy.resumeK,
        CoroutineProxy.resume_live_cons s hs y rest r]
      match j with
      | 0 => rfl
      | j' + 1 =>
        have := ih rest r .suspended (by simp) (by omega)
          (by simp at hlen; omega)
        simpa using this

lemma CoroutineProxy.resumeK_succ (k : Nat) :
    ∀ co : CoroutineProxy,
      co.resumeK (k + 1) = ((co.resumeK k).resume).2 := by
  induction k with
  | zero => intro co; rfl
  | succ j ih =>
    intro co
    show ((co.resume).2.resumeK (j + 1)) = _
    rw [ih (co.resume).2]
    rfl

lemma CoroutineProxy.resume_exhausted (s : CoStatus) (hs : s ≠ .dead)
    (r : Option LuaVal) :
    ((CoroutineProxy.resume ⟨s, [], r⟩).2).status = .dead := by
  simp only [CoroutineProxy.resume, hs]
  match r with
  | some v => simp
  | none => simp

/-- C4: for every coroutine proxy driven to completion, the status follows
not-started → suspended* → dead; once dead the "is alive" query is false
and every further resume/next/send raises the StopIteration-equivalent,
leaves the coroutine unchanged (the body is never re-executed), and the
dead state is terminal. -/
theorem coroutine_status_lifecycle (ys : List LuaVal) (r : Option LuaVal) :
    (CoroutineProxy.resumeK ⟨.notStarted, ys, r⟩ 0).status = .notStarted ∧
    (∀ k, 1 ≤ k → k ≤ ys.length →
      (CoroutineProxy.resumeK ⟨.notStarted, ys, r⟩ k).status = .suspended) ∧
    (CoroutineProxy.resumeK ⟨.notStarted, ys, r⟩ (ys.length + 1)).status
      = .dead ∧
    (∀ co : CoroutineProxy, co.status = .dead →
      co.isAlive = false ∧ co.resume = (.error .stopIteration, co)) := by
  refine ⟨rfl, ?_, ?_, ?_⟩
  · intro k h1 hk
    rw [CoroutineProxy.resumeK_pending k ys r .notStarted (by simp) h1 hk]
  · match h : ys with
    | [] =>
      show (CoroutineProxy.resumeK ⟨.notStarted, [], r⟩ (0 + 1)).status = .dead
      rw [CoroutineProxy.resumeK_succ 0]
      exact CoroutineProxy.resume_exhausted .notStarted (by simp) r
    | y :: rest =>
      rw [CoroutineProxy.resumeK_succ]
      rw [CoroutineProxy.resumeK_pending (y :: rest).length (y :: rest) r
        .notStarted (by simp) (by simp) (le_refl _)]
      simpa using CoroutineProxy.resume_exhausted .suspended (by simp) r
  · intro co hdead
    constructor
    · simp [CoroutineProxy.isAlive, hdead]
    · simp [CoroutineProxy.resume, hdead]

/-- Witness for `coroutine_status_lifecycle` at a concrete coroutine. -/
theorem coroutine_status_lifecycle_witness :
    (CoroutineProxy.resumeK
      ⟨.notStarted, [.intv 0, .intv 1], some (.intv 99)⟩ 2).status
      = .suspended :=
  (coroutine_status_lifecycle [.intv 0, .intv 1] (some (.intv 99))).2.1 2
    (by decide) (by decide)

/-- C2: for every thread and every depth `N`, acquiring the Reentrant
Session Lock `N` times and releasing it `N` times from the same thread
leaves the lock unheld (the ownership query returns false for every
thread); one further release raises the programmer-misuse error
(`RuntimeError`), and a release by a thread that does not own the lock is
likewise rejected with `RuntimeError` rather than silently ignored. -/
theorem fastRLock_depth_misuse (t t' : ThreadId) (N : Nat) (hne : t' ≠ t) :
    ∃ held : FastRLock,
      FastRLock.acquireN FastRLock.new t N = some held ∧
      FastRLock.releaseN held t N = Except.ok FastRLock.new ∧
      (∀ u : ThreadId, FastRLock.isOwned FastRLock.new u = false) ∧
      FastRLock.release FastRLock.new t
        = Except.error LockError.runtimeError ∧
      (0 < N →
        FastRLock.release held t' = Except.error LockError.runtimeError) := by
  match N with
  | 0 =>
    refine ⟨FastRLock.new, rfl, rfl, ?_, rfl, fun h => absurd h (by omega)⟩
    intro u
    simp [FastRLock.isOwned, FastRLock.new]
  | n + 1 =>
    refine ⟨⟨some t, n + 1⟩, FastRLock.acquireN_new t n,
      FastRLock.releaseN_owned t n, ?_, rfl, ?_⟩
    · intro u
      simp [FastRLock.isOwned, FastRLock.new]
    · intro _
      simp only [FastRLock.release]
      rw [if_neg (fun h => hne h.symm)]

/-- Witness for `fastRLock_depth_misuse` at threads 0 ≠ 1 and depth 2. -/
theorem fastRLock_depth_misuse_witness :
    (1 : ThreadId) ≠ 0 ∧
    ∃ held : FastRLock,
      FastRLock.acquireN FastRLock.new 0 2 = some held ∧
      FastRLock.releaseN held 0 2 = Except.ok FastRLock.new ∧
      (∀ u : ThreadId, FastRLock.isOwned FastRLock.new u = false) ∧
      FastRLock.release FastRLock.new 0
        = Except.error LockError.runtimeError ∧
      (0 < 2 →
        FastRLock.release held 1 = Except.error LockError.runtimeError) :=
  ⟨by decide, fastRLock_depth_misuse 0 1 2 (by decide)⟩

lemma hashFind_hashSet (h : List (LKey × LuaVal)) (k : LKey) (v : LuaVal) :
    hashFind (hashSet h k v) k = some v := by
  induction h with
  | nil => simp [hashSet, hashFind]
  | cons p rest ih =>
    by_cases hp : p.1 = k
    · simp [hashSet, hashFind, hp]
    · simp [hashSet, hashFind, hp, ih]

/-- C1: a Python exception raised by a host callable invoked from Lua code
propagates through the Lua call stack and re-emerges at the top-level host
call site as the original exception object (`pyRaise e`, not a `LuaError`
wrapper), even through further Lua work on the stack; and when the Lua
code intercepts it with `pcall`, the error value `pcall` observes is the
identical Python exception object. -/
theorem host_exception_propagation (f : HostFn) (e : PyExc)
    (k : LuaVal → LuaVal) (hf : f () = .error e) :
    topCall (.after (.hostCall f) k) = .pyRaise e ∧
    topCall (.pcallE (.hostCall f)) = .ok [.boolean false, .pyobj e] := by
  constructor
  · simp [topCall, evalL, hf]
  · simp [topCall, evalL, hf, LuaErrVal.toLua]

/-- Witness for `host_exception_propagation` at a concrete raising
callable. -/
theorem host_exception_propagation_witness :
    ((fun _ => (.error ⟨7⟩ : Except PyExc LuaVal)) : HostFn) ()
        = .error ⟨7⟩ ∧
    topCall (.after (.hostCall (fun _ => .error ⟨7⟩)) id) = .pyRaise ⟨7⟩ ∧
    topCall (.pcallE (.hostCall (fun _ => .error ⟨7⟩)))
        = .ok [.boolean false, .pyobj ⟨7⟩] :=
  ⟨rfl,
    host_exception_propagation (fun _ => .error ⟨7⟩) ⟨7⟩ id rfl⟩

/-- C6: the host `None` sentinel round-trips as a table key in both
conversion directions: with no `python.none` key present, reading
`t[None]` from the host and `t[python.none]` from Lua both yield the host
`None`; after the host assignment `t[None] = n`, both sides read back `n`;
and the assignment leaves the table length unchanged — for every table,
whether or not it initially contained a `python.none` key. -/
theorem none_key_roundtrip (t : LTable) (n : Int) :
    (t.rawget .nkey = Option.none →
      t.hostGetNone = PyVal.none ∧
      luaValToHost t.luaGetPyNone = PyVal.none) ∧
    (t.hostSetNone (.pyint n)).hostGetNone = .pyint n ∧
    luaValToHost (t.hostSetNone (.pyint n)).luaGetPyNone = .pyint n ∧
    (t.hostSetNone (.pyint n)).len = t.len := by
  refine ⟨?_, ?_, ?_, rfl⟩
  · intro h
    constructor
    · simp [LTable.hostGetNone, h, luaValToHost]
    · simp [LTable.luaGetPyNone, h, luaValToHost]
  · simp [LTable.hostGetNone, LTable.hostSetNone, LTable.rawset,
      LTable.rawget, hostValToLua, hashFind_hashSet, luaValToHost]
  · simp [LTable.luaGetPyNone, LTable.hostSetNone, LTable.rawset,
      LTable.rawget, hostValToLua, hashFind_hashSet, luaValToHost]

/-- Witness for `none_key_roundtrip` at the table `{1, 2}`. -/
theorem none_key_roundtrip_witness :
    (⟨[.intv 1, .intv 2], []⟩ : LTable).hostGetNone = PyVal.none ∧
    luaValToHost (⟨[.intv 1, .intv 2], []⟩ : LTable).luaGetPyNone
      = PyVal.none :=
  (none_key_roundtrip ⟨[.intv 1, .intv 2], []⟩ 123).1 rfl

/-- C7: an allocation that would exceed a set memory budget raises the
distinct out-of-memory error (`LuaMemoryError`, not the generic
`LuaError`); and `set_max_memory` with a value below current usage itself
succeeds, the lowered budget being enforced only on the next allocation,
which then raises the out-of-memory error. -/
theorem memory_budget_enforcement (st : MemState) (b n : Nat)
    (hb : 0 < b) (hlow : b < st.used) (hn : 0 < n) :
    (∀ (m : MemState) (j : Nat), m.maxMem ≠ 0 → m.maxMem < m.used + j →
      m.alloc j = .error .luaMemoryError) ∧
    (∀ msg, LuaErrorKind.luaMemoryError ≠ .luaError msg) ∧
    st.setMaxMemory b = .ok ⟨st.used, b⟩ ∧
    MemState.alloc ⟨st.used, b⟩ n = .error .luaMemoryError := by
  refine ⟨?_, ?_, rfl, ?_⟩
  · intro m j hm hex
    simp only [MemState.alloc]
    rw [if_pos ⟨hm, hex⟩]
  · intro msg hcontra
    cases hcontra
  · simp only [MemState.alloc]
    rw [if_pos ⟨by omega, by omega⟩]

/-- Witness for `memory_budget_enforcement`: usage 50000 bytes, budget
lowered to 10000, next allocation of 10 bytes. -/
theorem memory_budget_enforcement_witness :
    (0 < 10000 ∧ 10000 < (⟨50000, 1000000⟩ : MemState).used ∧ 0 < 10) ∧
    (MemState.setMaxMemory ⟨50000, 1000000⟩ 10000
        = .ok ⟨50000, 10000⟩ ∧
      MemState.alloc ⟨50000, 10000⟩ 10 = .error .luaMemoryError) :=
  ⟨⟨by decide, by decide, by decide⟩,
    ⟨(memory_budget_enforcement ⟨50000, 1000000⟩ 10000 10
        (by decide) (by decide) (by decide)).2.2.1,
     (memory_budget_enforcement ⟨50000, 1000000⟩ 10000 10
        (by decide) (by decide) (by decide)).2.2.2⟩⟩

/-- C3: an integer within `[LUA_MININTEGER, LUA_MAXINTEGER]` marshals to a
Lua integer under any handler; out of range with no handler installed it
raises OverflowError; with `overflow_handler=float`, an out-of-range
integer within the float range yields a Lua float equal to its value,
while an integer exceeding the float range still raises OverflowError;
and a handler returning a still-out-of-range integer raises on the single
re-marshal pass instead of looping. -/
theorem integer_overflow_marshaling (n : Int) :
    (LUA_MININTEGER ≤ n ∧ n ≤ LUA_MAXINTEGER →
      ∀ handler, marshalInt handler n = .ok (.intv n)) ∧
    (¬(LUA_MININTEGER ≤ n ∧ n ≤ LUA_MAXINTEGER) →
      marshalInt Option.none n = .error .overflowError ∧
      (-maxFloatInt ≤ n ∧ n ≤ maxFloatInt →
        marshalInt (some pyFloatOfInt) n = .ok (.floatv n)) ∧
      (¬(-maxFloatInt ≤ n ∧ n ≤ maxFloatInt) →
        marshalInt (some pyFloatOfInt) n = .error .overflowError) ∧
      (∀ m, ¬(LUA_MININTEGER ≤ m ∧ m ≤ LUA_MAXINTEGER) →
        marshalInt (some (fun _ => .ok (.pyint m))) n
          = .error .overflowError)) := by
  constructor
  · intro h handler
    simp [marshalInt, h]
  · intro h
    refine ⟨?_, ?_, ?_, ?_⟩
    · simp [marshalInt, h]
    · intro hf
      simp [marshalInt, h, pyFloatOfInt, hf, Except.bind, marshalResult,
        hostValToLua]
    · intro hf
      simp [marshalInt, h, pyFloatOfInt, hf, Except.bind]
    · intro m hm
      simp [marshalInt, h, Except.bind, marshalResult, hm]

/-- Witness for `integer_overflow_marshaling` at `2^64` (one past the Lua
integer range, within the float range) and `2 * maxFloatInt` (past the
float range). -/
theorem integer_overflow_marshaling_witness :
    ¬(LUA_MININTEGER ≤ (2 : Int) ^ 64 ∧ (2 : Int) ^ 64 ≤ LUA_MAXINTEGER) ∧
    marshalInt (some pyFloatOfInt) (2 ^ 64) = .ok (.floatv (2 ^ 64)) ∧
    marshalInt (some pyFloatOfInt) (2 * maxFloatInt)
      = .error .overflowError :=
  ⟨by norm_num [LUA_MININTEGER, LUA_MAXINTEGER],
    ((integer_overflow_marshaling (2 ^ 64)).2
        (by norm_num [LUA_MININTEGER, LUA_MAXINTEGER])).2.1
      (by constructor <;> norm_num [maxFloatInt]),
    ((integer_overflow_marshaling (2 * maxFloatInt)).2
        (by norm_num [LUA_MININTEGER, LUA_MAXINTEGER, maxFloatInt])).2.2.1
      (by norm_num [maxFloatInt])⟩

/-- C5: after the host drops its last reference to the Session while a
table proxy is still alive, operations on the proxy do not crash (the
model is a total function): the proxy still answers its last cached index
lookup, and any new embedded call through the proxy raises the
dead-reference error. -/
theorem dead_session_proxy (tbl : LTable) (k0 k : LKey) (v0 : LuaVal)
    (hne : k ≠ k0) :
    (TableProxy.dropSession ⟨true, some (k0, v0), tbl⟩).index k0
      = .ok v0 ∧
    (TableProxy.dropSession ⟨true, some (k0, v0), tbl⟩).index k
      = .error .deadReference := by
  constructor
  · simp [TableProxy.dropSession, TableProxy.index]
  · simp [TableProxy.dropSession, TableProxy.index, TableProxy.embeddedCall,
      hne.symm]

/-- Witness for `dead_session_proxy`: the table `{1,2,3,4}` with cached
lookup of key 1, probed at the new key 2. -/
theorem dead_session_proxy_witness :
    (LKey.ikey 2 ≠ LKey.ikey 1) ∧
    ((TableProxy.dropSession
        ⟨true, some (.ikey 1, .intv 1),
          ⟨[.intv 1, .intv 2, .intv 3, .intv 4], []⟩⟩).index (.ikey 1)
      = .ok (.intv 1) ∧
    (TableProxy.dropSession
        ⟨true, some (.ikey 1, .intv 1),
          ⟨[.intv 1, .intv 2, .intv 3, .intv 4], []⟩⟩).index (.ikey 2)
      = .error .deadReference) :=
  ⟨by decide,
    dead_session_proxy ⟨[.intv 1, .intv 2, .intv 3, .intv 4], []⟩
      (.ikey 1) (.ikey 2) (.intv 1) (by decide)⟩

/-- C8: session construction validates the attribute-access policy at
construction time: a nonempty handlers tuple together with a filter, a
non-callable filter, a handlers tuple of wrong arity, and a pair with a
non-callable non-None element are all rejected with ValueError; while no
filter, a callable filter, no handlers, an empty handlers tuple, a
(callable, callable) pair and a (None, None) pair are accepted. -/
theorem ctor_policy_validation :
    (∀ (f a : PyVal) (rest : List PyVal), f ≠ PyVal.none →
      validatePolicy f (some (a :: rest)) = .error .valueError) ∧
    (∀ (f : PyVal) (ah : Option (List PyVal)), f ≠ PyVal.none →
      ¬ f.isCallable → validatePolicy f ah = .error .valueError) ∧
    (∀ a : PyVal, validatePolicy .none (some [a]) = .error .valueError) ∧
    (∀ (a b c : PyVal) (rest : List PyVal),
      validatePolicy .none (some (a :: b :: c :: rest))
        = .error .valueError) ∧
    (∀ g s : PyVal,
      ¬((g = PyVal.none ∨ g.isCallable) ∧ (s = PyVal.none ∨ s.isCallable)) →
      validatePolicy .none (some [g, s]) = .error .valueError) ∧
    (∃ pol, validatePolicy .none Option.none = .ok pol) ∧
    (∃ pol, validatePolicy .none (some []) = .ok pol) ∧
    (∀ i j : Nat, ∃ pol,
      validatePolicy .none (some [.pycallable i, .pycallable j])
        = .ok pol) ∧
    (∃ pol, validatePolicy .none (some [.none, .none]) = .ok pol) ∧
    (∀ i : Nat, ∃ pol,
      validatePolicy (.pycallable i) Option.none = .ok pol) := by
  refine ⟨?_, ?_, ?_, ?_, ?_, ?_, ?_, ?_, ?_, ?_⟩
  · intro f a rest hf
    by_cases hc : f.isCallable
    · match rest with
      | [] => simp [validatePolicy, hf, hc]
      | [b] => simp [validatePolicy, hf, hc]
      | b :: c :: r => simp [validatePolicy, hf, hc]
    · simp [validatePolicy, hf, hc]
  · intro f ah hf hc
    unfold validatePolicy
    rw [if_pos ⟨hf, hc⟩]
  · intro a
    simp [validatePolicy, PyVal.isCallable]
  · intro a b c rest
    simp [validatePolicy, PyVal.isCallable]
  · intro g s h
    simp only [validatePolicy]
    simp [h]
  · exact ⟨_, rfl⟩
  · exact ⟨_, rfl⟩
  · intro i j
    refine ⟨⟨Option.none, some (.pycallable i), some (.pycallable j)⟩, ?_⟩
    simp [validatePolicy, PyVal.isCallable]
  · exact ⟨_, rfl⟩
  · intro i
    refine ⟨⟨some (.pycallable i), Option.none, Option.none⟩, ?_⟩
    simp [validatePolicy, PyVal.isCallable]

/-- Witness for `ctor_policy_validation`: a non-callable filter `123` is
rejected, extracted by applying the theorem at that input. -/
theorem ctor_policy_validation_witness :
    validatePolicy (.pyint 123) Option.none = .error .valueError :=
  ctor_policy_validation.2.1 (.pyint 123) Option.none (by decide) (by decide)

lemma natListCmp_self : ∀ a : List Nat, natListCmp a a = .eq := by
  intro a
  induction a with
  | nil => rfl
  | cons x xs ih =>
    simp only [natListCmp]
    rw [if_neg (by omega), if_neg (by omega)]
    exact ih

lemma natListCmp_eq : ∀ a b : List Nat, natListCmp a b = .eq → a = b := by
  intro a
  induction a with
  | nil =>
    intro b h
    match b with
    | [] => rfl
    | _ :: _ => simp [natListCmp] at h
  | cons x xs ih =>
    intro b h
    match b with
    | [] => simp [natListCmp] at h
    | y :: ys =>
      simp only [natListCmp] at h
      by_cases hxy : x < y
      · rw [if_pos hxy] at h; exact absurd h (by simp)
      · rw [if_neg hxy] at h
        by_cases hyx : y < x
        · rw [if_pos hyx] at h; exact absurd h (by simp)
        · rw [if_neg hyx] at h
          have : x = y := by omega
          rw [this, ih ys h]

lemma natListCmp_gt : ∀ a b : List Nat, natListCmp a b = .gt →
    natListCmp b a = .lt := by
  intro a
  induction a with
  | nil =>
    intro b h
    match b with
    | [] => simp [natListCmp] at h
    | _ :: _ => simp [natListCmp] at h
  | cons x xs ih =>
    intro b h
    match b with
    | [] => rfl
    | y :: ys =>
      simp only [natListCmp] at h ⊢
      by_cases hxy : x < y
      · rw [if_pos hxy] at h; exact absurd h (by simp)
      · rw [if_neg hxy] at h
        by_cases hyx : y < x
        · rw [if_pos hyx]
        · rw [if_neg hyx] at h
          rw [if_neg (by omega), if_neg (by omega)]
          exact ih ys h

lemma natListCmp_lt_trans :
    ∀ a b c : List Nat, natListCmp a b = .lt → natListCmp b c = .lt →
      natListCmp a c = .lt := by
  intro a
  induction a with
  | nil =>
    intro b c hab hbc
    match b, c with
    | [], _ => simp [natListCmp] at hab
    | _ :: _, [] => simp [natListCmp] at hbc
    | _ :: _, _ :: _ => rfl
  | cons x xs ih =>
    intro b c hab hbc
    match b, c with
    | [], _ => simp [natListCmp] at hab
    | _ :: _, [] => simp [natListCmp] at hbc
    | y :: ys, z :: zs =>
      simp only [natListCmp] at hab hbc ⊢
      by_cases hyz : y < z
      · by_cases hxy : x < y
        · rw [if_pos (by omega)]
        · rw [if_neg hxy] at hab
          by_cases hyx : y < x
          · rw [if_pos hyx] at hab; exact absurd hab (by simp)
          · rw [if_pos (by omega)]
      · rw [if_neg hyz] at hbc
        by_cases hzy : z < y
        · rw [if_pos hzy] at hbc; exact absurd hbc (by simp)
        · rw [if_neg hzy] at hbc
          by_cases hxy : x < y
          · rw [if_pos (by omega)]
          · rw [if_neg hxy] at hab
            by_cases hyx : y < x
            · rw [if_pos hyx] at hab; exact absurd hab (by simp)
            · rw [if_neg hyx] at hab
              rw [if_neg (by omega), if_neg (by omega)]
              exact ih ys zs hab hbc

lemma ordIsLt_true {o : Ordering} : ordIsLt o = true ↔ o = .lt := by
  cases o <;> simp [ordIsLt]

lemma keyLt_irrefl (k : Bool × List Nat) : keyLt k k = false := by
  match k with
  | (false, l) =>
    show ordIsLt (natListCmp l l) = false
    rw [natListCmp_self]
    rfl
  | (true, l) =>
    show ordIsLt (natListCmp l l) = false
    rw [natListCmp_self]
    rfl

lemma keyLt_trans (a b c : Bool × List Nat) (hab : keyLt a b = true)
    (hbc : keyLt b c = true) : keyLt a c = true := by
  match a, b, c with
  | (false, la), (false, lb), (false, lc) =>
    show ordIsLt (natListCmp la lc) = true
    rw [ordIsLt_true]
    exact natListCmp_lt_trans la lb lc (ordIsLt_true.1 hab)
      (ordIsLt_true.1 hbc)
  | (false, la), (false, lb), (true, lc) => rfl
  | (false, la), (true, lb), (false, lc) => exact Bool.noConfusion hbc
  | (false, la), (true, lb), (true, lc) => rfl
  | (true, la), (false, lb), (false, lc) => exact Bool.noConfusion hab
  | (true, la), (false, lb), (true, lc) => exact Bool.noConfusion hab
  | (true, la), (true, lb), (false, lc) => exact Bool.noConfusion hbc
  | (true, la), (true, lb), (true, lc) =>
    show ordIsLt (natListCmp la lc) = true
    rw [ordIsLt_true]
    exact natListCmp_lt_trans la lb lc (ordIsLt_true.1 hab)
      (ordIsLt_true.1 hbc)

lemma keyLt_resolve (a b : Bool × List Nat) (h : keyLt a b = false) :
    a = b ∨ keyLt b a = true := by
  match a, b with
  | (false, la), (true, lb) => exact Bool.noConfusion h
  | (true, la), (false, lb) => right; rfl
  | (false, la), (false, lb) =>
    have h' : ordIsLt (natListCmp la lb) = false := h
    match hc : natListCmp la lb with
    | .lt => rw [hc] at h'; exact Bool.noConfusion h'
    | .eq => left; rw [natListCmp_eq la lb hc]
    | .gt =>
      right
      show ordIsLt (natListCmp lb la) = true
      rw [natListCmp_gt la lb hc]
      rfl
  | (true, la), (true, lb) =>
    have h' : ordIsLt (natListCmp la lb) = false := h
    match hc : natListCmp la lb with
    | .lt => rw [hc] at h'; exact Bool.noConfusion h'
    | .eq => left; rw [natListCmp_eq la lb hc]
    | .gt =>
      right
      show ordIsLt (natListCmp lb la) = true
      rw [natListCmp_gt la lb hc]
      rfl

lemma pyMax_foldl_mem {α : Type} (key : α → Bool × List Nat) :
    ∀ (xs : List α) (x : α),
      xs.foldl (fun best y =>
        if keyLt (key best) (key y) then y else best) x ∈ x :: xs := by
  intro xs
  induction xs with
  | nil => intro x; simp
  | cons y ys ih =>
    intro x
    simp only [List.foldl_cons]
    by_cases h : keyLt (key x) (key y) = true
    · rw [if_pos h]
      have := ih y
      simp only [List.mem_cons] at this ⊢
      tauto
    · rw [if_neg h]
      have := ih x
      simp only [List.mem_cons] at this ⊢
      tauto

lemma pyMax_foldl_max {α : Type} (key : α → Bool × List Nat) :
    ∀ (xs : List α) (x : α) (z : α), z ∈ x :: xs →
      keyLt (key (xs.foldl (fun best y =>
        if keyLt (key best) (key y) then y else best) x)) (key z)
        = false := by
  intro xs
  induction xs with
  | nil =>
    intro x z hz
    simp only [List.mem_cons, List.not_mem_nil, or_false] at hz
    subst hz
    simp [keyLt_irrefl]
  | cons y ys ih =>
    intro x z hz
    simp only [List.foldl_cons]
    by_cases h : keyLt (key x) (key y) = true
    · rw [if_pos h]
      rcases List.mem_cons.1 hz with hzx | hz'
      · rw [hzx]
        by_contra hbz
        simp only [Bool.not_eq_false] at hbz
        have hby := ih y y (by simp)
        have := keyLt_trans _ _ _ hbz h
        rw [this] at hby
        exact absurd hby (by simp)
      · exact ih y z hz'
    · rw [if_neg h]
      rcases List.mem_cons.1 hz with hzx | hz'
      · rw [hzx]
        exact ih x x (by simp)
      · rcases List.mem_cons.1 hz' with hzy | hz''
        · rw [hzy]
          rcases keyLt_resolve (key x) (key y)
            (by simpa using h) with heq | hlt
          · have := ih x x (by simp)
            rw [heq] at this
            exact this
          · by_contra hbz
            simp only [Bool.not_eq_false] at hbz
            have := keyLt_trans _ _ _ hbz hlt
            have hbx := ih x x (by simp)
            rw [this] at hbx
            exact absurd hbx (by simp)
        · exact ih x z (by simp [hz''])

lemma pyMax_spec {α : Type} (key : α → Bool × List Nat) (x : α)
    (xs : List α) :
    ∃ b, pyMax key (x :: xs) = some b ∧ b ∈ x :: xs ∧
      ∀ y ∈ x :: xs, keyLt (key b) (key y) = false := by
  refine ⟨_, rfl, pyMax_foldl_mem key xs x, ?_⟩
  intro y hy
  exact pyMax_foldl_max key xs x y hy

/-- C9: `_import_newest_lib` deterministically picks, among the directory
entries matching `lua[a-z]*[0-9]*`, a module whose selection key
`(base name == "lua", numeric version tuple)` is maximal — preferring
plain Lua over LuaJIT and higher versions over lower; the chosen module is
cached in `_newest_lib`, so every later call (from any later attribute
access) returns the same module without re-scanning the directory; and a
`RuntimeError` is raised when no binary module file is found. -/
theorem import_newest_lib_selection (listing : List String) (m : String) :
    (∀ (listing' : List String) (name : String),
      importNewestLib ⟨some m⟩ listing' = .ok (m, ⟨some m⟩) ∧
      moduleGetattr ⟨some m⟩ listing' name = .ok ((m, name), ⟨some m⟩)) ∧
    (listing.filterMap matchLuaModule = [] →
      importNewestLib ⟨Option.none⟩ listing
        = .error (.runtimeError "Failed to import Lupa binary module.")) ∧
    (∀ (name : String) (st' : InitState),
      importNewestLib ⟨Option.none⟩ listing = .ok (name, st') →
      st' = ⟨some name⟩ ∧
      ∃ g ∈ listing.filterMap matchLuaModule, g.1 = name ∧
        ∀ g' ∈ listing.filterMap matchLuaModule,
          keyLt (moduleKey g) (moduleKey g') = false) := by
  refine ⟨fun listing' name => ⟨rfl, rfl⟩, ?_, ?_⟩
  · intro h
    simp only [importNewestLib, h]
    rfl
  · intro name st' h
    simp only [importNewestLib] at h
    match hl : listing.filterMap matchLuaModule with
    | [] =>
      rw [hl] at h
      simp [pyMax] at h
    | x :: xs =>
      rw [hl] at h
      obtain ⟨b, hb, hmem, hmax⟩ := pyMax_spec moduleKey x xs
      rw [hb] at h
      simp only [Except.ok.injEq, Prod.mk.injEq] at h
      obtain ⟨h1, h2⟩ := h
      refine ⟨by rw [← h2, h1], b, hmem, h1, ?_⟩
      intro g' hg'
      exact hmax g' hg'

/-- Witness for `import_newest_lib_selection`: among
`lua54.so`, `luajit21.so`, `lua53.so` the module `lua54` is picked and
its key is maximal. -/
theorem import_newest_lib_selection_witness :
    (⟨some "lua54"⟩ : InitState)
      = ⟨some "lua54"⟩ ∧
    ∃ g ∈ ["lua54.so", "luajit21.so", "lua53.so"].filterMap matchLuaModule,
      g.1 = "lua54" ∧
      ∀ g' ∈ ["lua54.so", "luajit21.so", "lua53.so"].filterMap
          matchLuaModule,
        keyLt (moduleKey g) (moduleKey g') = false :=
  (import_newest_lib_selection ["lua54.so", "luajit21.so", "lua53.so"]
    "unused").2.2 "lua54" ⟨some "lua54"⟩ rfl

/-- C10: every execution of `_import_newest_lib` leaves the process
dlopen-flags state unchanged: the import body observes
`RTLD_NOW | RTLD_GLOBAL` exactly when the platform has dlopen flags and
exactly one Lua binary module is present (the widening happens only inside
`allow_lua_module_loading`), the saved flags are restored on every exit
path — the outcome of the body, normal or raising, is passed through
while the final flags equal the initial ones. -/
theorem dlopen_flags_preserved {ε α : Type} (hasDlopenFlags : Bool)
    (listing : List String) (imp : SysState → Except ε α) (st : SysState) :
    importNewestWithFlags hasDlopenFlags listing imp st
      = (imp (if (listing.filterMap matchLuaModule).length = 1 ∧
                hasDlopenFlags = true then
            ⟨RTLD_NOW ||| RTLD_GLOBAL⟩ else st), st) := by
  by_cases h1 : (listing.filterMap matchLuaModule).length = 1
  · cases hasDlopenFlags with
    | false => simp [importNewestWithFlags, allow_lua_module_loading, h1]
    | true => simp [importNewestWithFlags, allow_lua_module_loading, h1]
  · simp [importNewestWithFlags, h1]

end Lupa
